import Mathlib

/-!
# Verification of `gotestlooplint`

A shallow embedding of the Go analyzer `gotestlooplint` (loop-variable capture
in parallel subtests and in Ginkgo `It` closures) together with proofs about
its behaviour.

The embedding follows the current sources:
  * the analyzer body (`findIgnoredTests`, `checkAndReportLoop`,
    `checkAndReportLoopGinkgo`, `isParallelFunctionClosure`,
    `getSubtestClosure`, `checkAndReportLoopIdentifierObject`,
    `findTestingTCalls`, `findGinkgoItCalls`, `isGinkgoIdentifier`);
  * `looputils.go` (`getLoopBody`, `exprToIdent`, `getLoopVarsIdentifiers`).

Modelling conventions:
  * Source positions (`token.Pos`) are natural numbers; each syntax node
    carries the position that the Go AST would report for it
    (`CallExpr.Pos() = Fun.Pos()`, `SelectorExpr.Pos() = X.Pos()`, ...).
  * `types.Object` identities are natural numbers (`Obj`); the possibly-nil
    result of `TypesInfo.ObjectOf` is an `Option Obj`.  The symbol-resolution
    oracle (`TypesInfo`) is an external collaborator and is a parameter: it
    maps an identifier's position (identifiers are uniquely located) to its
    object, an object to the string form of its type (`.Type().String()`),
    and an object to its declaring package path (`.Pkg().Path()`, `none`
    when `Pkg()` would be nil).
  * Go panics (nil dereference, index out of range) are modelled with
    `Except String`; the recovered value is the panic's description.
  * The AST is the sub-language the analyzer inspects: identifiers, basic
    literals, function literals (parameter names and body), call,
    selector expressions; expression/assignment/inc-dec/`for`/`range`
    statements.  Interior wrapper nodes that Go's `ast.Inspect` visits but
    that no callback of this analyzer distinguishes (`BlockStmt`,
    `FuncType`, `FieldList`, `Field`) are elided: every callback in the
    sources treats them as "not an identifier / not a call, keep
    descending", so eliding them does not change any observable result.
-/

set_option maxRecDepth 20000

namespace Gotestlooplint

/-- Source position (`token.Pos`). -/
abbrev Pos := Nat

/-- Identity of a `types.Object` (the declaration an identifier resolves to). -/
abbrev Obj := Nat

/-- An `*ast.Ident`: its textual name and its source position. -/
structure Ident where
  name : String
  pos : Pos
deriving DecidableEq, Repr

mutual
/-- Expressions of the inspected sub-language. -/
inductive Expr where
  | ident (i : Ident) : Expr
  | lit (pos : Pos) : Expr
  | funcLit (fl : FuncLit) : Expr
  | call (c : CallExpr) : Expr
  | sel (x : Expr) (s : Ident) : Expr
deriving DecidableEq, Repr

/-- An `*ast.CallExpr`: callee expression and positional arguments. -/
inductive CallExpr where
  | mk (fn : Expr) (args : ExprList) : CallExpr
deriving DecidableEq, Repr

/-- An `*ast.FuncLit`: position, parameter names, body statements. -/
inductive FuncLit where
  | mk (pos : Pos) (params : List Ident) (body : StmtList) : FuncLit
deriving DecidableEq, Repr

/-- A possibly-nil expression slot (`ast.Expr` that may be nil). -/
inductive OptExpr where
  | none : OptExpr
  | some (e : Expr) : OptExpr
deriving DecidableEq, Repr

/-- Statements of the inspected sub-language. -/
inductive Stmt where
  | exprStmt (e : Expr) : Stmt
  | assign (lhs rhs : ExprList) : Stmt
  | incDec (x : Expr) : Stmt
  | rangeStmt (pos : Pos) (key value : OptExpr) (x : Expr) (body : StmtList) : Stmt
  | forStmt (pos : Pos) (init : OptStmt) (cond : OptExpr) (post : OptStmt)
      (body : StmtList) : Stmt
deriving DecidableEq, Repr

/-- A possibly-nil statement slot (`ast.Stmt` that may be nil). -/
inductive OptStmt where
  | none : OptStmt
  | some (s : Stmt) : OptStmt
deriving DecidableEq, Repr

/-- A statement sequence (a `BlockStmt`'s `.List`). -/
inductive StmtList where
  | nil : StmtList
  | cons (s : Stmt) (ss : StmtList) : StmtList
deriving DecidableEq, Repr

/-- An expression list (`[]ast.Expr`). -/
inductive ExprList where
  | nil : ExprList
  | cons (e : Expr) (es : ExprList) : ExprList
deriving DecidableEq, Repr
end

/-- `Pos()` of an expression, as `go/ast` computes it. -/
def Expr.pos : Expr → Pos
  | .ident i => i.pos
  | .lit p => p
  | .funcLit (.mk p _ _) => p
  | .call (.mk fn _) => fn.pos
  | .sel x _ => x.pos

/-- `Pos()` of a call expression (`Fun.Pos()`). -/
def CallExpr.posOf : CallExpr → Pos
  | .mk fn _ => fn.pos

/-- The callee of a call expression. -/
def CallExpr.fn : CallExpr → Expr
  | .mk fn _ => fn

/-- The argument list of a call expression. -/
def CallExpr.args : CallExpr → ExprList
  | .mk _ args => args

/-- The body of a function literal. -/
def FuncLit.body : FuncLit → StmtList
  | .mk _ _ b => b

/-- The parameter names of a function literal. -/
def FuncLit.params : FuncLit → List Ident
  | .mk _ p _ => p

/-- Position of the first element of an expression list (0 when empty;
an empty list cannot arise from a parsed assignment). -/
def ExprList.headPos : ExprList → Pos
  | .nil => 0
  | .cons e _ => e.pos

/-- Index lookup in an expression list (`Args[i]`, as an option). -/
def ExprList.get? : ExprList → Nat → Option Expr
  | .nil, _ => Option.none
  | .cons e _, 0 => Option.some e
  | .cons _ es, n + 1 => es.get? n

/-- Length of an expression list. -/
def ExprList.length : ExprList → Nat
  | .nil => 0
  | .cons _ es => 1 + es.length

/-- `Pos()` of a statement, as `go/ast` computes it. -/
def Stmt.pos : Stmt → Pos
  | .exprStmt e => e.pos
  | .assign lhs _ => lhs.headPos
  | .incDec x => x.pos
  | .rangeStmt p _ _ _ _ => p
  | .forStmt p _ _ _ _ => p

/-- Append of statement sequences. -/
def StmtList.append : StmtList → StmtList → StmtList
  | .nil, ts => ts
  | .cons s ss, ts => .cons s (ss.append ts)

/-- An `ast.Node` as seen by an `ast.Inspect` callback. -/
inductive Node where
  | expr (e : Expr) : Node
  | stmt (s : Stmt) : Node
deriving DecidableEq, Repr

/-- `Pos()` of a node. -/
def Node.pos : Node → Pos
  | .expr e => e.pos
  | .stmt s => s.pos

/-- The description carried by a recovered Go panic. -/
abbrev Panic := String

/-- The symbol-resolution oracle supplied by the analysis framework
(`pass.TypesInfo` together with the `types` API used by the sources). -/
structure TypesInfo where
  /-- `ObjectOf` on the identifier at a position (`none` = nil object). -/
  objectOf : Pos → Option Obj
  /-- `obj.Type().String()`. -/
  typeStr : Obj → String
  /-- `obj.Pkg().Path()` (`none` when `Pkg()` is nil). -/
  pkgPath : Obj → Option String

/-- A reported diagnostic: position and fully formatted message. -/
structure Diagnostic where
  pos : Pos
  msg : String
deriving DecidableEq, Repr

/-- `fmt`-style substitution of `%s` verbs, used by `pass.Reportf`. -/
def formatChars : List Char → List String → List Char
  | [], _ => []
  | '%' :: 's' :: rest, a :: args => a.data ++ formatChars rest args
  | '%' :: 's' :: rest, [] => '%' :: 's' :: formatChars rest []
  | c :: rest, args => c :: formatChars rest args

/-- Format a message the way `pass.Reportf(pos, format, args...)` does. -/
def formatMsg (format : String) (args : List String) : String :=
  String.mk (formatChars format.data args)

/-- Message template for the parallel-subtest pattern. -/
def goTestFailureMessageFormat : String :=
  "loop variable `%s` used directly inside parallel test closure. This could lead to tests not running as expected. Try aliasing `%s` to a variable outside the closure"

/-- Message template for the Ginkgo pattern. -/
def ginkgoFailureMessageFormat : String :=
  "loop variable `%s` used directly inside ginkgo It closure. This could lead to tests not running as expected. Try aliasing `%s` to a variable outside the closure"

/-!
## `ast.Inspect`

`ast.Inspect(root, f)` performs a pre-order walk; when `f` returns `false`
the children of the current node are skipped but the walk continues with
the remaining nodes.  The callbacks of this analyzer keep state (the last
matching call / the report sink), so the combinator threads a state `σ`;
a callback may also panic (`Except`).  The trailing `f(nil)` calls that
`ast.Inspect` makes after descending are omitted: every callback in the
sources is a no-op on nil nodes.
-/

/-- An `ast.Inspect` callback with state `σ`: returns the new state and
whether to descend into the children of the visited node. -/
abbrev Step (σ : Type) := σ → Node → Except Panic (σ × Bool)

variable {σ : Type}

instance {ε α : Type} [DecidableEq ε] [DecidableEq α] : DecidableEq (Except ε α) := fun a b =>
  match a, b with
  | .error e, .error e' => if h : e = e' then .isTrue (by rw [h]) else .isFalse (by simp [h])
  | .error _, .ok _ => .isFalse (by simp)
  | .ok _, .error _ => .isFalse (by simp)
  | .ok v, .ok v' => if h : v = v' then .isTrue (by rw [h]) else .isFalse (by simp [h])

/-- Visit the parameter-name identifiers of a function literal (identifiers
have no children, so the callback's descend flag is irrelevant for them). -/
def inspectParams (f : Step σ) (s : σ) : List Ident → Except Panic σ
  | [] => .ok s
  | p :: ps =>
    match f s (.expr (.ident p)) with
    | .error msg => .error msg
    | .ok (s1, _) => inspectParams f s1 ps

mutual
/-- Walk an expression node: callback, then — when it returns `true` — the
children in `go/ast` walk order.  The `Sel` identifier of a selector is an
identifier node of its own and is visited (identifiers have no children,
so the callback's descend flag is irrelevant for it). -/
def inspectExpr (f : Step σ) (s : σ) : Expr → Except Panic σ
  | .ident i =>
    match f s (.expr (.ident i)) with
    | .error msg => .error msg
    | .ok (s1, _) => .ok s1
  | .lit p =>
    match f s (.expr (.lit p)) with
    | .error msg => .error msg
    | .ok (s1, _) => .ok s1
  | .funcLit (.mk p params body) =>
    match f s (.expr (.funcLit (.mk p params body))) with
    | .error msg => .error msg
    | .ok (s1, cont) =>
      if cont then
        match inspectParams f s1 params with
        | .error msg => .error msg
        | .ok s2 => inspectStmtList f s2 body
      else .ok s1
  | .call (.mk fn args) =>
    match f s (.expr (.call (.mk fn args))) with
    | .error msg => .error msg
    | .ok (s1, cont) =>
      if cont then
        match inspectExpr f s1 fn with
        | .error msg => .error msg
        | .ok s2 => inspectExprList f s2 args
      else .ok s1
  | .sel x i =>
    match f s (.expr (.sel x i)) with
    | .error msg => .error msg
    | .ok (s1, cont) =>
      if cont then
        match inspectExpr f s1 x with
        | .error msg => .error msg
        | .ok s2 =>
          match f s2 (.expr (.ident i)) with
          | .error msg => .error msg
          | .ok (s3, _) => .ok s3
      else .ok s1
  termination_by structural e => e

/-- Walk an expression list element-wise. -/
def inspectExprList (f : Step σ) (s : σ) : ExprList → Except Panic σ
  | .nil => .ok s
  | .cons e es =>
    match inspectExpr f s e with
    | .error msg => .error msg
    | .ok s1 => inspectExprList f s1 es
  termination_by structural es => es

/-- Walk a possibly-nil expression. -/
def inspectOptExpr (f : Step σ) (s : σ) : OptExpr → Except Panic σ
  | .none => .ok s
  | .some e => inspectExpr f s e
  termination_by structural oe => oe

/-- Walk a statement node: callback, then — when it returns `true` — the
children in `go/ast` walk order. -/
def inspectStmt (f : Step σ) (s : σ) : Stmt → Except Panic σ
  | .exprStmt e =>
    match f s (.stmt (.exprStmt e)) with
    | .error msg => .error msg
    | .ok (s1, cont) => if cont then inspectExpr f s1 e else .ok s1
  | .assign lhs rhs =>
    match f s (.stmt (.assign lhs rhs)) with
    | .error msg => .error msg
    | .ok (s1, cont) =>
      if cont then
        match inspectExprList f s1 lhs with
        | .error msg => .error msg
        | .ok s2 => inspectExprList f s2 rhs
      else .ok s1
  | .incDec x =>
    match f s (.stmt (.incDec x)) with
    | .error msg => .error msg
    | .ok (s1, cont) => if cont then inspectExpr f s1 x else .ok s1
  | .rangeStmt p key value x body =>
    match f s (.stmt (.rangeStmt p key value x body)) with
    | .error msg => .error msg
    | .ok (s1, cont) =>
      if cont then
        match inspectOptExpr f s1 key with
        | .error msg => .error msg
        | .ok s2 =>
          match inspectOptExpr f s2 value with
          | .error msg => .error msg
          | .ok s3 =>
            match inspectExpr f s3 x with
            | .error msg => .error msg
            | .ok s4 => inspectStmtList f s4 body
      else .ok s1
  | .forStmt p init cond post body =>
    match f s (.stmt (.forStmt p init cond post body)) with
    | .error msg => .error msg
    | .ok (s1, cont) =>
      if cont then
        match inspectOptStmt f s1 init with
        | .error msg => .error msg
        | .ok s2 =>
          match inspectOptExpr f s2 cond with
          | .error msg => .error msg
          | .ok s3 =>
            match inspectOptStmt f s3 post with
            | .error msg => .error msg
            | .ok s4 => inspectStmtList f s4 body
      else .ok s1
  termination_by structural st => st

/-- Walk a possibly-nil statement. -/
def inspectOptStmt (f : Step σ) (s : σ) : OptStmt → Except Panic σ
  | .none => .ok s
  | .some st => inspectStmt f s st
  termination_by structural os => os

/-- Walk a statement sequence element-wise. -/
def inspectStmtList (f : Step σ) (s : σ) : StmtList → Except Panic σ
  | .nil => .ok s
  | .cons st ss =>
    match inspectStmt f s st with
    | .error msg => .error msg
    | .ok s1 => inspectStmtList f s1 ss
  termination_by structural ss => ss
end

/-!
## `looputils.go`
-/

/-- `getLoopBody`: the body block of a loop node; the current sources return
nil for any other node kind. -/
def getLoopBody : Stmt → Option StmtList
  | .forStmt _ _ _ _ body => Option.some body
  | .rangeStmt _ _ _ _ body => Option.some body
  | _ => Option.none

/-- `exprToIdent`: a bare identifier resolves directly, a selector resolves
via its trailing field identifier, anything else yields nil. -/
def exprToIdent : Expr → Option Ident
  | .ident i => Option.some i
  | .sel _ s => Option.some s
  | _ => Option.none

/-- `isNonNilExpr` from `looputils.go`. -/
def isNonNilExpr : OptExpr → Bool
  | .none => false
  | .some _ => true

/-- `slices.Filter([]ast.Expr{Key, Value}, isNonNilExpr)`: the non-nil
expressions among the possibly-nil slots, with the (now known non-nil)
values unwrapped. -/
def presentExprs : List OptExpr → List Expr
  | [] => []
  | .none :: rest => presentExprs rest
  | .some e :: rest => e :: presentExprs rest

/-- Plain list of an `ExprList` (`[]ast.Expr`). -/
def ExprList.toList : ExprList → List Expr
  | .nil => []
  | .cons e es => e :: es.toList

/-- `getLoopVarsIdentifiers`: the loop-bound identifiers of a loop node
(possibly containing nil entries, as the Go slice of `*ast.Ident` can).
For a `for` statement whose initializer is an assignment, the left-hand
identifiers with the nil results of `exprToIdent` rejected; for any other
initializer, nil (empty).  For a `range` statement, `exprToIdent` mapped
over the non-nil key/value slots (without rejecting nil results).  Any
other node kind panics (`"unexpected node type"`). -/
def getLoopVarsIdentifiers : Stmt → Except Panic (List (Option Ident))
  | .forStmt _ init _ _ _ =>
    match init with
    | .some (.assign lhs _) =>
      .ok ((lhs.toList.map exprToIdent).filter fun id? => id?.isSome)
    | _ => .ok []
  | .rangeStmt _ key value _ _ =>
    .ok ((presentExprs [key, value]).map exprToIdent)
  | _ => .error "unexpected node type"

/-!
## The analyzer (`gotestlooplint.go`)
-/

/-- The match test of `findTestingTCalls`'s callback: the call's callee is a
selector whose receiver is an identifier, `ObjectOf(receiver).Type().String()`
is `"*testing.T"` and the selected name is `methodName`.  Dereferencing the
type of a nil object panics (and Go evaluates the type string before the
short-circuited name comparison). -/
def testingTCallMatches (ti : TypesInfo) (methodName : String) : CallExpr → Except Panic Bool
  | .mk (.sel (.ident x) selI) _ =>
    match ti.objectOf x.pos with
    | Option.none => .error "runtime error: invalid memory address or nil pointer dereference"
    | Option.some o => .ok (ti.typeStr o == "*testing.T" && selI.name == methodName)
  | _ => .ok false

/-- The `ast.Inspect` callback of `findTestingTCalls`: record a matching
call and stop descending into it; otherwise keep walking.  (Recording does
not stop the walk itself, so a later match overwrites an earlier one.) -/
def findTestingTCallsVisit (ti : TypesInfo) (methodName : String) : Step (Option CallExpr) :=
  fun acc n =>
    match n with
    | .expr (.call c) =>
      match testingTCallMatches ti methodName c with
      | .error msg => .error msg
      | .ok true => .ok (Option.some c, false)
      | .ok false => .ok (acc, true)
    | _ => .ok (acc, true)

/-- `findTestingTCalls`: scan a tree for `t.<methodName>()` calls where `t`
has type `*testing.T`. -/
def findTestingTCalls (ti : TypesInfo) (rootNode : StmtList) (methodName : String) :
    Except Panic (Option CallExpr) :=
  inspectStmtList (findTestingTCallsVisit ti methodName) Option.none rootNode

/-- `isGinkgoIdentifier`: `ObjectOf(identifier).Pkg().Path()` equals one of
the two Ginkgo import paths.  A nil object or a nil package panics. -/
def isGinkgoIdentifier (ti : TypesInfo) (identifier : Ident) : Except Panic Bool :=
  match ti.objectOf identifier.pos with
  | Option.none => .error "runtime error: invalid memory address or nil pointer dereference"
  | Option.some o =>
    match ti.pkgPath o with
    | Option.none => .error "runtime error: invalid memory address or nil pointer dereference"
    | Option.some packagePath =>
      .ok (packagePath == "github.com/onsi/ginkgo/v2" || packagePath == "github.com/onsi/ginkgo")

/-- The `switch` of `findGinkgoItCalls`'s callback on the call's `Fun`:
the selected name of a qualified call (`ginkgo.It`), a bare identifier
(dot-import `It`), or no candidate at all for any other callee shape. -/
def ginkgoCallIdentifier : Expr → Option Ident
  | .sel _ s => Option.some s
  | .ident i => Option.some i
  | _ => Option.none

/-- The match test of `findGinkgoItCalls`'s callback: the callee identifier
(the selected name of a qualified call, or a bare identifier) is named
`"It"` and resolves to one of the Ginkgo packages (the name comparison
short-circuits before the package lookup). -/
def ginkgoItCallMatches (ti : TypesInfo) : CallExpr → Except Panic Bool
  | .mk fn _ =>
    match ginkgoCallIdentifier fn with
    | Option.none => .ok false
    | Option.some callIdentifier =>
      if callIdentifier.name == "It" then isGinkgoIdentifier ti callIdentifier
      else .ok false

/-- The `ast.Inspect` callback of `findGinkgoItCalls`. -/
def findGinkgoItCallsVisit (ti : TypesInfo) : Step (Option CallExpr) :=
  fun acc n =>
    match n with
    | .expr (.call c) =>
      match ginkgoItCallMatches ti c with
      | .error msg => .error msg
      | .ok true => .ok (Option.some c, false)
      | .ok false => .ok (acc, true)
    | _ => .ok (acc, true)

/-- `findGinkgoItCalls`: scan a tree for Ginkgo `It` calls. -/
def findGinkgoItCalls (ti : TypesInfo) (rootNode : StmtList) : Except Panic (Option CallExpr) :=
  inspectStmtList (findGinkgoItCallsVisit ti) Option.none rootNode

/-- `isParallelFunctionClosure`: the position of the first recorded
`<*testing.T>.Parallel` call in the closure body, if any. -/
def isParallelFunctionClosure (ti : TypesInfo) (closure : FuncLit) : Except Panic (Option Pos) :=
  match findTestingTCalls ti closure.body "Parallel" with
  | .error msg => .error msg
  | .ok (Option.some parallelCall) => .ok (Option.some parallelCall.posOf)
  | .ok Option.none => .ok Option.none

/-- `pass.TypesInfo.ObjectOf` applied to a possibly-nil `*ast.Ident`
(`ObjectOf(nil)` is a nil-keyed map lookup yielding a nil object). -/
def objectOfNilableIdent (ti : TypesInfo) : Option Ident → Option Obj
  | Option.none => Option.none
  | Option.some i => ti.objectOf i.pos

/-- `getLoopNodeIdentifiersObjects`: the loop-variable identifiers mapped
through `ObjectOf`. -/
def getLoopNodeIdentifiersObjects (ti : TypesInfo) (loopNode : Stmt) :
    Except Panic (List (Option Obj)) :=
  match getLoopVarsIdentifiers loopNode with
  | .error msg => .error msg
  | .ok ids => .ok (ids.map (objectOfNilableIdent ti))

/-- `getSubtestClosure`: `runCall.Args[1].(*ast.FuncLit)`; indexing a
too-short argument list panics, a non-func-literal second argument yields
nil. -/
def getSubtestClosure (runCall : CallExpr) : Except Panic (Option FuncLit) :=
  match runCall.args.get? 1 with
  | Option.none =>
    .error ("runtime error: index out of range [1] with length " ++
      toString runCall.args.length)
  | Option.some (.funcLit closure) => .ok (Option.some closure)
  | Option.some _ => .ok Option.none

/-- `checkAndReportLoopIdentifierObject`: on an identifier node whose
`ObjectOf` value equals one of the loop-variable objects, report one
diagnostic at the identifier's position (substituting the name twice into
the template) and stop descending; otherwise keep descending.  The model
returns the reported diagnostics next to the descend flag. -/
def checkAndReportLoopIdentifierObject (ti : TypesInfo)
    (loopVarsIdentifiersObjects : List (Option Obj)) (node : Node) (message : String) :
    List Diagnostic × Bool :=
  match node with
  | .expr (.ident identifier) =>
    let identifierObject := ti.objectOf identifier.pos
    if loopVarsIdentifiersObjects.any (fun loopVarObject => identifierObject == loopVarObject) then
      ([⟨identifier.pos, formatMsg message [identifier.name, identifier.name]⟩], false)
    else ([], true)
  | _ => ([], true)

/-- The `ast.Inspect` callback of `checkAndReportLoop`'s closure walk:
nodes positioned at-or-before the parallel marker are allowed, every other
node goes through `checkAndReportLoopIdentifierObject`. -/
def subtestReportVisit (ti : TypesInfo) (objs : List (Option Obj)) (parallelTokenPos : Pos) :
    Step (List Diagnostic) :=
  fun acc n =>
    if n.pos ≤ parallelTokenPos then .ok (acc, true)
    else
      let r := checkAndReportLoopIdentifierObject ti objs n goTestFailureMessageFormat
      .ok (acc ++ r.1, r.2)

/-- The `ast.Inspect` callback of `checkAndReportLoopGinkgo`'s closure
walk: every node goes through `checkAndReportLoopIdentifierObject`. -/
def ginkgoReportVisit (ti : TypesInfo) (objs : List (Option Obj)) : Step (List Diagnostic) :=
  fun acc n =>
    let r := checkAndReportLoopIdentifierObject ti objs n ginkgoFailureMessageFormat
    .ok (acc ++ r.1, r.2)

/-- `checkAndReportLoop`: the parallel-subtest check of one loop node.
Returns the reported diagnostics and whether a panic escaped (diagnostics
reported before a panic persist). -/
def checkAndReportLoop (ti : TypesInfo) (loopNode : Stmt) :
    List Diagnostic × Except Panic Unit :=
  match getLoopNodeIdentifiersObjects ti loopNode with
  | .error msg => ([], .error msg)
  | .ok loopVarsIdentifiersObjects =>
    match getLoopBody loopNode with
    | Option.none =>
      -- `ast.Inspect` on the nil body a non-loop node would produce panics
      ([], .error "runtime error: invalid memory address or nil pointer dereference")
    | Option.some body =>
      match findTestingTCalls ti body "Run" with
      | .error msg => ([], .error msg)
      | .ok Option.none => ([], .ok ())
      | .ok (Option.some runCall) =>
        match getSubtestClosure runCall with
        | .error msg => ([], .error msg)
        | .ok Option.none => ([], .ok ())
        | .ok (Option.some closure) =>
          match isParallelFunctionClosure ti closure with
          | .error msg => ([], .error msg)
          | .ok Option.none => ([], .ok ())
          | .ok (Option.some parallelTokenPos) =>
            match inspectExpr (subtestReportVisit ti loopVarsIdentifiersObjects parallelTokenPos)
                [] (.funcLit closure) with
            | .error msg => ([], .error msg)
            | .ok ds => (ds, .ok ())

/-- `checkAndReportLoopGinkgo`: the Ginkgo check of one loop node. -/
def checkAndReportLoopGinkgo (ti : TypesInfo) (loopNode : Stmt) :
    List Diagnostic × Except Panic Unit :=
  match getLoopNodeIdentifiersObjects ti loopNode with
  | .error msg => ([], .error msg)
  | .ok loopVarsIdentifiersObjects =>
    match getLoopBody loopNode with
    | Option.none =>
      ([], .error "runtime error: invalid memory address or nil pointer dereference")
    | Option.some body =>
      match findGinkgoItCalls ti body with
      | .error msg => ([], .error msg)
      | .ok Option.none => ([], .ok ())
      | .ok (Option.some ginkgoItCall) =>
        match getSubtestClosure ginkgoItCall with
        | .error msg => ([], .error msg)
        | .ok Option.none => ([], .ok ())
        | .ok (Option.some closure) =>
          match inspectExpr (ginkgoReportVisit ti loopVarsIdentifiersObjects)
              [] (.funcLit closure) with
          | .error msg => ([], .error msg)
          | .ok ds => (ds, .ok ())

/-- The format used by the recovery diagnostic of `findIgnoredTests`. -/
def panicMessageFormat : String := "panic: %s\n"

/-- The diagnostic reported by the deferred `recover` of the per-loop
callback. -/
def panicDiagnostic (loopNode : Stmt) (r : Panic) : Diagnostic :=
  ⟨loopNode.pos, formatMsg panicMessageFormat [r]⟩

/-- The per-loop callback of `findIgnoredTests`: run the subtest check then
the Ginkgo check; a panic in either is recovered and reported at the
loop's position (and aborts the rest of this loop's callback, including
the Ginkgo check when the subtest check panicked). -/
def loopNodeCallback (ti : TypesInfo) (loopNode : Stmt) : List Diagnostic :=
  match checkAndReportLoop ti loopNode with
  | (ds, .error r) => ds ++ [panicDiagnostic loopNode r]
  | (ds, .ok _) =>
    match checkAndReportLoopGinkgo ti loopNode with
    | (ds2, .error r) => ds ++ (ds2 ++ [panicDiagnostic loopNode r])
    | (ds2, .ok _) => ds ++ ds2

mutual
/-- Loop nodes (`*ast.RangeStmt`, `*ast.ForStmt`) of an expression's
subtree, in pre-order (`inspector.Preorder`). -/
def loopsOfExpr : Expr → List Stmt
  | .ident _ => []
  | .lit _ => []
  | .funcLit (.mk _ _ body) => loopsOfStmtList body
  | .call (.mk fn args) => loopsOfExpr fn ++ loopsOfExprList args
  | .sel x _ => loopsOfExpr x
  termination_by structural e => e

/-- Loop nodes of an expression list, in pre-order. -/
def loopsOfExprList : ExprList → List Stmt
  | .nil => []
  | .cons e es => loopsOfExpr e ++ loopsOfExprList es
  termination_by structural es => es

/-- Loop nodes of a possibly-nil expression, in pre-order. -/
def loopsOfOptExpr : OptExpr → List Stmt
  | .none => []
  | .some e => loopsOfExpr e
  termination_by structural oe => oe

/-- Loop nodes of a statement's subtree, in pre-order (the loop node
itself comes before the loops nested below it). -/
def loopsOfStmt : Stmt → List Stmt
  | .exprStmt e => loopsOfExpr e
  | .assign lhs rhs => loopsOfExprList lhs ++ loopsOfExprList rhs
  | .incDec x => loopsOfExpr x
  | .rangeStmt p key value x body =>
    .rangeStmt p key value x body ::
      (loopsOfOptExpr key ++ loopsOfOptExpr value ++ loopsOfExpr x ++ loopsOfStmtList body)
  | .forStmt p init cond post body =>
    .forStmt p init cond post body ::
      (loopsOfOptStmt init ++ loopsOfOptExpr cond ++ loopsOfOptStmt post ++
        loopsOfStmtList body)
  termination_by structural st => st

/-- Loop nodes of a possibly-nil statement, in pre-order. -/
def loopsOfOptStmt : OptStmt → List Stmt
  | .none => []
  | .some st => loopsOfStmt st
  termination_by structural os => os

/-- Loop nodes of a statement sequence, in pre-order. -/
def loopsOfStmtList : StmtList → List Stmt
  | .nil => []
  | .cons st ss => loopsOfStmt st ++ loopsOfStmtList ss
  termination_by structural ss => ss
end

/-- `findIgnoredTests`: the analyzer entry point.  `inspector.Preorder`
enumerates every loop node of the source unit in pre-order and runs the
recovery-guarded per-loop callback on each; the reported diagnostics are
the concatenation. -/
def findIgnoredTests (ti : TypesInfo) (file : StmtList) : List Diagnostic :=
  (loopsOfStmtList file).flatMap (loopNodeCallback ti)

/-!
## Specification-side views

The spec describes the capture checkers by the flat list of identifier
occurrences of the closure ("every identifier in the closure"), filtered
by loop-variable membership and (for the subtest pattern) by position.
The following definitions transcribe that wording; the refinement
theorems below relate them to the traversals of the sources.
-/

mutual
/-- Identifier occurrences of an expression, in walk order. -/
def identsOfExpr : Expr → List Ident
  | .ident i => [i]
  | .lit _ => []
  | .funcLit (.mk _ params body) => params ++ identsOfStmtList body
  | .call (.mk fn args) => identsOfExpr fn ++ identsOfExprList args
  | .sel x i => identsOfExpr x ++ [i]
  termination_by structural e => e

/-- Identifier occurrences of an expression list. -/
def identsOfExprList : ExprList → List Ident
  | .nil => []
  | .cons e es => identsOfExpr e ++ identsOfExprList es
  termination_by structural es => es

/-- Identifier occurrences of a possibly-nil expression. -/
def identsOfOptExpr : OptExpr → List Ident
  | .none => []
  | .some e => identsOfExpr e
  termination_by structural oe => oe

/-- Identifier occurrences of a statement. -/
def identsOfStmt : Stmt → List Ident
  | .exprStmt e => identsOfExpr e
  | .assign lhs rhs => identsOfExprList lhs ++ identsOfExprList rhs
  | .incDec x => identsOfExpr x
  | .rangeStmt _ key value x body =>
    identsOfOptExpr key ++ identsOfOptExpr value ++ identsOfExpr x ++ identsOfStmtList body
  | .forStmt _ init cond post body =>
    identsOfOptStmt init ++ identsOfOptExpr cond ++ identsOfOptStmt post ++
      identsOfStmtList body
  termination_by structural st => st

/-- Identifier occurrences of a possibly-nil statement. -/
def identsOfOptStmt : OptStmt → List Ident
  | .none => []
  | .some st => identsOfStmt st
  termination_by structural os => os

/-- Identifier occurrences of a statement sequence. -/
def identsOfStmtList : StmtList → List Ident
  | .nil => []
  | .cons st ss => identsOfStmt st ++ identsOfStmtList ss
  termination_by structural ss => ss
end

/-- Specification wording of the subtest capture check (§4.6/§8): one
diagnostic per identifier of the closure that resolves to a loop-variable
object and sits strictly after the recorded marker position. -/
def subtestSpecifiedDiags (ti : TypesInfo) (objs : List (Option Obj)) (markerPos : Pos)
    (closure : FuncLit) : List Diagnostic :=
  (identsOfExpr (.funcLit closure)).flatMap fun i =>
    if markerPos < i.pos ∧ ti.objectOf i.pos ∈ objs then
      [⟨i.pos, formatMsg goTestFailureMessageFormat [i.name, i.name]⟩]
    else []

/-- Specification wording of the Ginkgo capture check (§4.6/§8): one
diagnostic per identifier of the closure that resolves to a loop-variable
object, with no position filter. -/
def ginkgoSpecifiedDiags (ti : TypesInfo) (objs : List (Option Obj))
    (closure : FuncLit) : List Diagnostic :=
  (identsOfExpr (.funcLit closure)).flatMap fun i =>
    if ti.objectOf i.pos ∈ objs then
      [⟨i.pos, formatMsg ginkgoFailureMessageFormat [i.name, i.name]⟩]
    else []

/-!
## Concrete example inputs

Small source units together with the symbol table the Go type checker
would produce for them, used to instantiate the theorems below.
Positions are the token positions of the sketched source; object numbers
are arbitrary distinct identities.
-/

/-- Oracle for `exLoop1`:
`for v := range xs { t.Run("name", func(tp *testing.T) { tp.Parallel(); use(v) }) }`.
`v` declares object 100 (pos 10) and is used at pos 52; `t` (pos 20) and
the closure parameter `tp` (poss 30, 40) have type `*testing.T`. -/
def exTI1 : TypesInfo where
  objectOf := fun p => match p with
    | 10 => Option.some 100 | 11 => Option.some 500 | 20 => Option.some 200
    | 30 => Option.some 300 | 40 => Option.some 300 | 41 => Option.some 301
    | 50 => Option.some 400 | 52 => Option.some 100
    | _ => Option.none
  typeStr := fun o => match o with
    | 200 => "*testing.T" | 300 => "*testing.T" | _ => "int"
  pkgPath := fun _ => Option.some "main"

/-- The subtest closure of `exLoop1`: `func(tp *testing.T) { tp.Parallel(); use(v) }`. -/
def exClosure1 : FuncLit :=
  .mk 25 [⟨"tp", 30⟩]
    (.cons (.exprStmt (.call (.mk (.sel (.ident ⟨"tp", 40⟩) ⟨"Parallel", 41⟩) .nil)))
      (.cons (.exprStmt (.call (.mk (.ident ⟨"use", 50⟩) (.cons (.ident ⟨"v", 52⟩) .nil))))
        .nil))

/-- `for v := range xs { t.Run("name", func(tp *testing.T) { tp.Parallel(); use(v) }) }`. -/
def exLoop1 : Stmt :=
  .rangeStmt 5 (.some (.ident ⟨"v", 10⟩)) .none (.ident ⟨"xs", 11⟩)
    (.cons (.exprStmt (.call (.mk (.sel (.ident ⟨"t", 20⟩) ⟨"Run", 21⟩)
      (.cons (.lit 22) (.cons (.funcLit exClosure1) .nil))))) .nil)

/-- Oracle for `exLoop2`:
`for _, tc := range cases { It("desc", func() { assert(tc.want) }) }`
(define-form range: the blank gets a fresh object 101 recorded in `Defs`;
`It` resolves to object 600 declared in the current Ginkgo package). -/
def exTI2 : TypesInfo where
  objectOf := fun p => match p with
    | 10 => Option.some 101 | 12 => Option.some 100 | 14 => Option.some 500
    | 60 => Option.some 600 | 70 => Option.some 700 | 72 => Option.some 100
    | 73 => Option.some 800
    | _ => Option.none
  typeStr := fun _ => "int"
  pkgPath := fun o => match o with
    | 600 => Option.some "github.com/onsi/ginkgo/v2"
    | _ => Option.some "main"

/-- The Ginkgo `It` call of `exLoop2`. -/
def exItCall2 : CallExpr :=
  .mk (.ident ⟨"It", 60⟩)
    (.cons (.lit 61) (.cons (.funcLit (.mk 62 []
      (.cons (.exprStmt (.call (.mk (.ident ⟨"assert", 70⟩)
        (.cons (.sel (.ident ⟨"tc", 72⟩) ⟨"want", 73⟩) .nil)))) .nil))) .nil))

/-- The spec closure of `exLoop2`: `func() { assert(tc.want) }`. -/
def exClosure2 : FuncLit :=
  .mk 62 []
    (.cons (.exprStmt (.call (.mk (.ident ⟨"assert", 70⟩)
      (.cons (.sel (.ident ⟨"tc", 72⟩) ⟨"want", 73⟩) .nil)))) .nil)

/-- `for _, tc := range cases { It("desc", func() { assert(tc.want) }) }`. -/
def exLoop2 : Stmt :=
  .rangeStmt 5 (.some (.ident ⟨"_", 10⟩)) (.some (.ident ⟨"tc", 12⟩)) (.ident ⟨"cases", 14⟩)
    (.cons (.exprStmt (.call exItCall2)) .nil)

/-- Oracle for `exLoop3`:
`for v := range xs { t.Run("name"); It("desc", func() { use(v) }) }`
(`t.Run` with a single argument; `It` resolves to Ginkgo and its closure
references `v` at pos 72). -/
def exTI3 : TypesInfo where
  objectOf := fun p => match p with
    | 10 => Option.some 100 | 20 => Option.some 200 | 60 => Option.some 600
    | 70 => Option.some 700 | 72 => Option.some 100
    | _ => Option.none
  typeStr := fun o => match o with | 200 => "*testing.T" | _ => "int"
  pkgPath := fun o => match o with
    | 600 => Option.some "github.com/onsi/ginkgo/v2"
    | _ => Option.some "main"

/-- The malformed `t.Run("name")` call of `exLoop3` (one argument only). -/
def exRunCall3 : CallExpr :=
  .mk (.sel (.ident ⟨"t", 20⟩) ⟨"Run", 21⟩) (.cons (.lit 22) .nil)

/-- `for v := range xs { t.Run("name"); It("desc", func() { use(v) }) }`. -/
def exLoop3 : Stmt :=
  .rangeStmt 5 (.some (.ident ⟨"v", 10⟩)) .none (.ident ⟨"xs", 11⟩)
    (.cons (.exprStmt (.call exRunCall3))
      (.cons (.exprStmt (.call (.mk (.ident ⟨"It", 60⟩)
        (.cons (.lit 61) (.cons (.funcLit (.mk 62 []
          (.cons (.exprStmt (.call (.mk (.ident ⟨"use", 70⟩)
            (.cons (.ident ⟨"v", 72⟩) .nil)))) .nil))) .nil))))) .nil))

/-- Oracle for `exBody4`: both `t` occurrences (poss 20 and 30) have type
`*testing.T`. -/
def exTI4 : TypesInfo where
  objectOf := fun p => match p with
    | 20 => Option.some 200 | 30 => Option.some 200
    | _ => Option.none
  typeStr := fun o => match o with | 200 => "*testing.T" | _ => "int"
  pkgPath := fun _ => Option.none

/-- The first `t.Run` call of `exBody4` (at pos 20). -/
def exCallA : CallExpr :=
  .mk (.sel (.ident ⟨"t", 20⟩) ⟨"Run", 21⟩) (.cons (.lit 22) .nil)

/-- The second `t.Run` call of `exBody4` (at pos 30). -/
def exCallB : CallExpr :=
  .mk (.sel (.ident ⟨"t", 30⟩) ⟨"Run", 31⟩) (.cons (.lit 32) .nil)

/-- `{ t.Run("a"); t.Run("b") }`: two sibling matching calls. -/
def exBody4 : StmtList :=
  .cons (.exprStmt (.call exCallA)) (.cons (.exprStmt (.call exCallB)) .nil)

/-- Oracle for `exClosure5`: the closure's own parameter `tp` is object
300 (pos 30); the receiver of the `Parallel` call is the *outer* test
context `t`, object 200 (pos 40); both have type `*testing.T`. -/
def exTI5 : TypesInfo where
  objectOf := fun p => match p with
    | 30 => Option.some 300 | 40 => Option.some 200 | 41 => Option.some 301
    | _ => Option.none
  typeStr := fun o => match o with
    | 200 => "*testing.T" | 300 => "*testing.T" | _ => "int"
  pkgPath := fun _ => Option.some "main"

/-- `func(tp *testing.T) { t.Parallel(x) }`: the marked call's receiver is
the outer `t`, not the closure's own parameter, and the call has one
argument. -/
def exClosure5 : FuncLit :=
  .mk 25 [⟨"tp", 30⟩]
    (.cons (.exprStmt (.call (.mk (.sel (.ident ⟨"t", 40⟩) ⟨"Parallel", 41⟩)
      (.cons (.lit 45) .nil)))) .nil)

/-- Oracle for `exLoop8`: the assignment-form blanks (poss 10, 12, 70)
resolve to the nil object, as `go/types` records `Defs[_] = nil` for a
blank on the left of a plain assignment; `It` is object 600 from Ginkgo. -/
def exTI8 : TypesInfo where
  objectOf := fun p => match p with
    | 14 => Option.some 500 | 60 => Option.some 600 | 72 => Option.some 700
    | _ => Option.none
  typeStr := fun _ => "int"
  pkgPath := fun o => match o with
    | 600 => Option.some "github.com/onsi/ginkgo/v2"
    | _ => Option.some "main"

/-- `for _, _ = range xs { It("desc", func() { _ = f() }) }`: both range
bindings discarded (assignment form), and the closure assigns to a blank. -/
def exLoop8 : Stmt :=
  .rangeStmt 5 (.some (.ident ⟨"_", 10⟩)) (.some (.ident ⟨"_", 12⟩)) (.ident ⟨"xs", 14⟩)
    (.cons (.exprStmt (.call (.mk (.ident ⟨"It", 60⟩)
      (.cons (.lit 61) (.cons (.funcLit (.mk 62 []
        (.cons (.assign (.cons (.ident ⟨"_", 70⟩) .nil)
          (.cons (.call (.mk (.ident ⟨"f", 72⟩) .nil)) .nil)) .nil))) .nil))))) .nil)

/-- `for i++; cond; i++ { }`: a counting loop whose initializer is a shape
the extractor was not built to recognize (an inc/dec statement). -/
def exLoop9 : Stmt :=
  .forStmt 5 (.some (.incDec (.ident ⟨"i", 10⟩))) (.some (.ident ⟨"cond", 12⟩))
    (.some (.incDec (.ident ⟨"i", 14⟩))) .nil

/-!
## The traversal lemma

A report-walk callback touches the state only at identifier nodes, where
it appends a list depending on the identifier alone; on every other node
it keeps the state and descends.  For such callbacks the whole
`ast.Inspect` walk appends the concatenation over the identifier
occurrences in walk order (identifier nodes have no children, so the
descend flag returned at one is irrelevant).
-/

theorem inspectParams_flatMap (f : Step (List Diagnostic)) (g : Ident → List Diagnostic)
    (c : Ident → Bool)
    (hid : ∀ acc i, f acc (.expr (.ident i)) = .ok (acc ++ g i, c i)) :
    ∀ (ps : List Ident) (acc : List Diagnostic),
      inspectParams f acc ps = .ok (acc ++ ps.flatMap g)
  | [], acc => by simp [inspectParams]
  | p :: ps, acc => by
    simp only [inspectParams, hid]
    simp [inspectParams_flatMap f g c hid ps (acc ++ g p)]

mutual
theorem inspectExpr_flatMap (f : Step (List Diagnostic)) (g : Ident → List Diagnostic)
    (c : Ident → Bool)
    (hid : ∀ acc i, f acc (.expr (.ident i)) = .ok (acc ++ g i, c i))
    (hot : ∀ acc n, (∀ i, n ≠ .expr (.ident i)) → f acc n = .ok (acc, true)) :
    ∀ (e : Expr) (acc : List Diagnostic),
      inspectExpr f acc e = .ok (acc ++ (identsOfExpr e).flatMap g)
  | .ident i, acc => by
    simp only [inspectExpr, hid]
    simp [identsOfExpr]
  | .lit p, acc => by
    simp only [inspectExpr, hot acc (.expr (.lit p)) (by intro i h; simp at h)]
    simp [identsOfExpr]
  | .funcLit (.mk p params body), acc => by
    simp only [inspectExpr, hot acc (.expr (.funcLit (.mk p params body))) (by intro i h; simp at h)]
    simp only [inspectParams_flatMap f g c hid params acc,
      inspectStmtList_flatMap f g c hid hot body (acc ++ params.flatMap g)]
    simp [identsOfExpr]
  | .call (.mk fn args), acc => by
    simp only [inspectExpr, hot acc (.expr (.call (.mk fn args))) (by intro i h; simp at h)]
    simp only [inspectExpr_flatMap f g c hid hot fn acc,
      inspectExprList_flatMap f g c hid hot args (acc ++ (identsOfExpr fn).flatMap g)]
    simp [identsOfExpr]
  | .sel x i, acc => by
    simp only [inspectExpr, hot acc (.expr (.sel x i)) (by intro i h; simp at h)]
    simp only [inspectExpr_flatMap f g c hid hot x acc, hid]
    simp [identsOfExpr]
  termination_by structural e => e

theorem inspectExprList_flatMap (f : Step (List Diagnostic)) (g : Ident → List Diagnostic)
    (c : Ident → Bool)
    (hid : ∀ acc i, f acc (.expr (.ident i)) = .ok (acc ++ g i, c i))
    (hot : ∀ acc n, (∀ i, n ≠ .expr (.ident i)) → f acc n = .ok (acc, true)) :
    ∀ (es : ExprList) (acc : List Diagnostic),
      inspectExprList f acc es = .ok (acc ++ (identsOfExprList es).flatMap g)
  | .nil, acc => by simp [inspectExprList, identsOfExprList]
  | .cons e es, acc => by
    simp only [inspectExprList, inspectExpr_flatMap f g c hid hot e acc]
    simp only [inspectExprList_flatMap f g c hid hot es (acc ++ (identsOfExpr e).flatMap g)]
    simp [identsOfExprList]
  termination_by structural es => es

theorem inspectOptExpr_flatMap (f : Step (List Diagnostic)) (g : Ident → List Diagnostic)
    (c : Ident → Bool)
    (hid : ∀ acc i, f acc (.expr (.ident i)) = .ok (acc ++ g i, c i))
    (hot : ∀ acc n, (∀ i, n ≠ .expr (.ident i)) → f acc n = .ok (acc, true)) :
    ∀ (oe : OptExpr) (acc : List Diagnostic),
      inspectOptExpr f acc oe = .ok (acc ++ (identsOfOptExpr oe).flatMap g)
  | .none, acc => by simp [inspectOptExpr, identsOfOptExpr]
  | .some e, acc => by
    simp only [inspectOptExpr, inspectExpr_flatMap f g c hid hot e acc]
    simp [identsOfOptExpr]
  termination_by structural oe => oe

theorem inspectStmt_flatMap (f : Step (List Diagnostic)) (g : Ident → List Diagnostic)
    (c : Ident → Bool)
    (hid : ∀ acc i, f acc (.expr (.ident i)) = .ok (acc ++ g i, c i))
    (hot : ∀ acc n, (∀ i, n ≠ .expr (.ident i)) → f acc n = .ok (acc, true)) :
    ∀ (st : Stmt) (acc : List Diagnostic),
      inspectStmt f acc st = .ok (acc ++ (identsOfStmt st).flatMap g)
  | .exprStmt e, acc => by
    simp only [inspectStmt, hot acc (.stmt (.exprStmt e)) (by intro i h; simp at h)]
    simp only [inspectExpr_flatMap f g c hid hot e acc]
    simp [identsOfStmt]
  | .assign lhs rhs, acc => by
    simp only [inspectStmt, hot acc (.stmt (.assign lhs rhs)) (by intro i h; simp at h)]
    simp only [inspectExprList_flatMap f g c hid hot lhs acc,
      inspectExprList_flatMap f g c hid hot rhs (acc ++ (identsOfExprList lhs).flatMap g)]
    simp [identsOfStmt]
  | .incDec x, acc => by
    simp only [inspectStmt, hot acc (.stmt (.incDec x)) (by intro i h; simp at h)]
    simp only [inspectExpr_flatMap f g c hid hot x acc]
    simp [identsOfStmt]
  | .rangeStmt p key value x body, acc => by
    simp only [inspectStmt, hot acc (.stmt (.rangeStmt p key value x body)) (by intro i h; simp at h)]
    simp only [inspectOptExpr_flatMap f g c hid hot key acc,
      inspectOptExpr_flatMap f g c hid hot value (acc ++ (identsOfOptExpr key).flatMap g),
      inspectExpr_flatMap f g c hid hot x
        (acc ++ (identsOfOptExpr key).flatMap g ++ (identsOfOptExpr value).flatMap g),
      inspectStmtList_flatMap f g c hid hot body
        (acc ++ (identsOfOptExpr key).flatMap g ++ (identsOfOptExpr value).flatMap g ++
          (identsOfExpr x).flatMap g)]
    simp [identsOfStmt]
  | .forStmt p init cond post body, acc => by
    simp only [inspectStmt, hot acc (.stmt (.forStmt p init cond post body)) (by intro i h; simp at h)]
    simp only [inspectOptStmt_flatMap f g c hid hot init acc,
      inspectOptExpr_flatMap f g c hid hot cond (acc ++ (identsOfOptStmt init).flatMap g),
      inspectOptStmt_flatMap f g c hid hot post
        (acc ++ (identsOfOptStmt init).flatMap g ++ (identsOfOptExpr cond).flatMap g),
      inspectStmtList_flatMap f g c hid hot body
        (acc ++ (identsOfOptStmt init).flatMap g ++ (identsOfOptExpr cond).flatMap g ++
          (identsOfOptStmt post).flatMap g)]
    simp [identsOfStmt]
  termination_by structural st => st

theorem inspectOptStmt_flatMap (f : Step (List Diagnostic)) (g : Ident → List Diagnostic)
    (c : Ident → Bool)
    (hid : ∀ acc i, f acc (.expr (.ident i)) = .ok (acc ++ g i, c i))
    (hot : ∀ acc n, (∀ i, n ≠ .expr (.ident i)) → f acc n = .ok (acc, true)) :
    ∀ (os : OptStmt) (acc : List Diagnostic),
      inspectOptStmt f acc os = .ok (acc ++ (identsOfOptStmt os).flatMap g)
  | .none, acc => by simp [inspectOptStmt, identsOfOptStmt]
  | .some st, acc => by
    simp only [inspectOptStmt, inspectStmt_flatMap f g c hid hot st acc]
    simp [identsOfOptStmt]
  termination_by structural os => os

theorem inspectStmtList_flatMap (f : Step (List Diagnostic)) (g : Ident → List Diagnostic)
    (c : Ident → Bool)
    (hid : ∀ acc i, f acc (.expr (.ident i)) = .ok (acc ++ g i, c i))
    (hot : ∀ acc n, (∀ i, n ≠ .expr (.ident i)) → f acc n = .ok (acc, true)) :
    ∀ (ss : StmtList) (acc : List Diagnostic),
      inspectStmtList f acc ss = .ok (acc ++ (identsOfStmtList ss).flatMap g)
  | .nil, acc => by simp [inspectStmtList, identsOfStmtList]
  | .cons st ss, acc => by
    simp only [inspectStmtList, inspectStmt_flatMap f g c hid hot st acc]
    simp only [inspectStmtList_flatMap f g c hid hot ss (acc ++ (identsOfStmt st).flatMap g)]
    simp [identsOfStmtList]
  termination_by structural ss => ss
end

/-!
## Helper lemmas about the capture checker
-/

/-- The `slices.Any` equality test over the loop-variable objects is list
membership of the `ObjectOf` value. -/
theorem any_beq_eq_mem (x : Option Obj) (objs : List (Option Obj)) :
    (objs.any fun o => x == o) = decide (x ∈ objs) := by
  induction objs with
  | nil => rfl
  | cons a as ih => by_cases h : x = a <;> simp [List.any_cons, ih, h]

/-- Characterization of `checkAndReportLoopIdentifierObject` on an
identifier node: everything is decided by membership of the resolved
object value. -/
theorem checkIdent_eq_memIf (ti : TypesInfo) (objs : List (Option Obj)) (i : Ident)
    (message : String) :
    checkAndReportLoopIdentifierObject ti objs (.expr (.ident i)) message =
      if ti.objectOf i.pos ∈ objs then
        ([⟨i.pos, formatMsg message [i.name, i.name]⟩], false)
      else ([], true) := by
  simp only [checkAndReportLoopIdentifierObject]
  rw [any_beq_eq_mem]
  by_cases h : ti.objectOf i.pos ∈ objs <;> simp [h]

/-- `checkAndReportLoopIdentifierObject` is a no-op on non-identifier
nodes. -/
theorem checkIdent_not_ident (ti : TypesInfo) (objs : List (Option Obj)) (n : Node)
    (message : String) (h : ∀ i, n ≠ .expr (.ident i)) :
    checkAndReportLoopIdentifierObject ti objs n message = ([], true) := by
  cases n with
  | expr e =>
    cases e with
    | ident i => exact absurd rfl (h i)
    | lit p => rfl
    | funcLit fl => rfl
    | call c => rfl
    | sel x s => rfl
  | stmt s => rfl

/-- What the subtest report callback does at an identifier node. -/
theorem subtestReportVisit_ident (ti : TypesInfo) (objs : List (Option Obj)) (mp : Pos) :
    ∀ (acc : List Diagnostic) (i : Ident),
      subtestReportVisit ti objs mp acc (.expr (.ident i)) =
        .ok (acc ++ (if mp < i.pos ∧ ti.objectOf i.pos ∈ objs then
              [⟨i.pos, formatMsg goTestFailureMessageFormat [i.name, i.name]⟩] else []),
          if mp < i.pos ∧ ti.objectOf i.pos ∈ objs then false else true) := by
  intro acc i
  simp only [subtestReportVisit, checkIdent_eq_memIf, Node.pos, Expr.pos]
  by_cases h1 : i.pos ≤ mp
  · have h2 : ¬ mp < i.pos := Nat.not_lt.mpr h1
    simp [h1, h2]
  · have h2 : mp < i.pos := Nat.not_le.mp h1
    by_cases h3 : ti.objectOf i.pos ∈ objs <;> simp [h1, h2, h3]

/-- The subtest report callback keeps the state and descends on every
non-identifier node. -/
theorem subtestReportVisit_other (ti : TypesInfo) (objs : List (Option Obj)) (mp : Pos) :
    ∀ (acc : List Diagnostic) (n : Node), (∀ i, n ≠ .expr (.ident i)) →
      subtestReportVisit ti objs mp acc n = .ok (acc, true) := by
  intro acc n hn
  simp only [subtestReportVisit, checkIdent_not_ident ti objs n goTestFailureMessageFormat hn]
  split <;> simp

/-- What the Ginkgo report callback does at an identifier node. -/
theorem ginkgoReportVisit_ident (ti : TypesInfo) (objs : List (Option Obj)) :
    ∀ (acc : List Diagnostic) (i : Ident),
      ginkgoReportVisit ti objs acc (.expr (.ident i)) =
        .ok (acc ++ (if ti.objectOf i.pos ∈ objs then
              [⟨i.pos, formatMsg ginkgoFailureMessageFormat [i.name, i.name]⟩] else []),
          if ti.objectOf i.pos ∈ objs then false else true) := by
  intro acc i
  simp only [ginkgoReportVisit, checkIdent_eq_memIf]
  by_cases h : ti.objectOf i.pos ∈ objs <;> simp [h]

/-- The Ginkgo report callback keeps the state and descends on every
non-identifier node. -/
theorem ginkgoReportVisit_other (ti : TypesInfo) (objs : List (Option Obj)) :
    ∀ (acc : List Diagnostic) (n : Node), (∀ i, n ≠ .expr (.ident i)) →
      ginkgoReportVisit ti objs acc n = .ok (acc, true) := by
  intro acc n hn
  simp only [ginkgoReportVisit, checkIdent_not_ident ti objs n ginkgoFailureMessageFormat hn]
  simp

/-!
## Claim theorems
-/

/-- C1: for a loop whose body contains a matched subtest `Run` call whose
second argument is a function literal, the subtest check reports nothing
when the closure contains no parallel marker, and otherwise exactly one
diagnostic per identifier of the closure that resolves (by object
identity) to a loop variable and is positioned strictly after the
recorded marker — each at the identifier's position, naming it —
identifiers at-or-before the marker being suppressed; no panic escapes. -/
theorem c1_subtest_position_filtered_diags (ti : TypesInfo) (loopNode : Stmt)
    (objs : List (Option Obj)) (body : StmtList) (runCall : CallExpr) (closure : FuncLit)
    (markerOpt : Option Pos)
    (hobjs : getLoopNodeIdentifiersObjects ti loopNode = .ok objs)
    (hbody : getLoopBody loopNode = Option.some body)
    (hrun : findTestingTCalls ti body "Run" = .ok (Option.some runCall))
    (hclosure : getSubtestClosure runCall = .ok (Option.some closure))
    (hmark : isParallelFunctionClosure ti closure = .ok markerOpt) :
    checkAndReportLoop ti loopNode =
      ((match markerOpt with
        | Option.none => []
        | Option.some markerPos => subtestSpecifiedDiags ti objs markerPos closure),
       .ok ()) := by
  unfold checkAndReportLoop
  simp only [hobjs, hbody, hrun, hclosure, hmark]
  cases markerOpt with
  | none => rfl
  | some mp =>
    simp only [inspectExpr_flatMap (subtestReportVisit ti objs mp)
      (fun i => if mp < i.pos ∧ ti.objectOf i.pos ∈ objs then
        [⟨i.pos, formatMsg goTestFailureMessageFormat [i.name, i.name]⟩] else [])
      (fun i => if mp < i.pos ∧ ti.objectOf i.pos ∈ objs then false else true)
      (subtestReportVisit_ident ti objs mp)
      (subtestReportVisit_other ti objs mp)
      (.funcLit closure) []]
    simp [subtestSpecifiedDiags]

/-- Witness for C1 at `exLoop1`. -/
theorem c1_subtest_position_filtered_diags_witness :
    checkAndReportLoop exTI1 exLoop1 =
      (subtestSpecifiedDiags exTI1 [Option.some 100] 40 exClosure1, .ok ()) :=
  c1_subtest_position_filtered_diags exTI1 exLoop1 [Option.some 100] _ _ exClosure1
    (Option.some 40) rfl rfl rfl rfl rfl

/-- C2: for a loop whose body contains a matched Ginkgo `It` call whose
second argument is a function literal, the Ginkgo check reports exactly
one diagnostic per identifier of the closure that resolves (by object
identity) to a loop variable, regardless of position — each at the
identifier's position, naming it; no panic escapes. -/
theorem c2_ginkgo_unfiltered_diags (ti : TypesInfo) (loopNode : Stmt)
    (objs : List (Option Obj)) (body : StmtList) (itCall : CallExpr) (closure : FuncLit)
    (hobjs : getLoopNodeIdentifiersObjects ti loopNode = .ok objs)
    (hbody : getLoopBody loopNode = Option.some body)
    (hit : findGinkgoItCalls ti body = .ok (Option.some itCall))
    (hclosure : getSubtestClosure itCall = .ok (Option.some closure)) :
    checkAndReportLoopGinkgo ti loopNode = (ginkgoSpecifiedDiags ti objs closure, .ok ()) := by
  unfold checkAndReportLoopGinkgo
  simp only [hobjs, hbody, hit, hclosure]
  simp only [inspectExpr_flatMap (ginkgoReportVisit ti objs)
    (fun i => if ti.objectOf i.pos ∈ objs then
      [⟨i.pos, formatMsg ginkgoFailureMessageFormat [i.name, i.name]⟩] else [])
    (fun i => if ti.objectOf i.pos ∈ objs then false else true)
    (ginkgoReportVisit_ident ti objs)
    (ginkgoReportVisit_other ti objs)
    (.funcLit closure) []]
  simp [ginkgoSpecifiedDiags]

/-- Witness for C2 at `exLoop2`. -/
theorem c2_ginkgo_unfiltered_diags_witness :
    checkAndReportLoopGinkgo exTI2 exLoop2 =
      (ginkgoSpecifiedDiags exTI2 [Option.some 101, Option.some 100] exClosure2, .ok ()) :=
  c2_ginkgo_unfiltered_diags exTI2 exLoop2 [Option.some 101, Option.some 100] _ exItCall2
    exClosure2 rfl rfl rfl rfl

/-- Splitting an `ast.Inspect` walk over an appended statement sequence. -/
theorem inspectStmtList_append {σ : Type} (f : Step σ) :
    ∀ (xs ys : StmtList) (s : σ),
      inspectStmtList f s (xs.append ys) =
        match inspectStmtList f s xs with
        | .error msg => .error msg
        | .ok s1 => inspectStmtList f s1 ys
  | .nil, ys, s => by simp [StmtList.append, inspectStmtList]
  | .cons st ss, ys, s => by
    simp only [StmtList.append, inspectStmtList]
    cases inspectStmt f s st with
    | error msg => rfl
    | ok s1 => exact inspectStmtList_append f ss ys s1

/-- When the last statement of the scanned sequence is a matching call,
`findTestingTCalls` returns that call — whatever earlier (non-panicking)
matches the walk recorded before it. -/
theorem findTestingTCalls_last (ti : TypesInfo) (methodName : String) (pre : StmtList)
    (fn : Expr) (args : ExprList) (s0 : Option CallExpr)
    (hpre : inspectStmtList (findTestingTCallsVisit ti methodName) Option.none pre = .ok s0)
    (hmatch : testingTCallMatches ti methodName (.mk fn args) = .ok true) :
    findTestingTCalls ti (pre.append (.cons (.exprStmt (.call (.mk fn args))) .nil))
      methodName = .ok (Option.some (.mk fn args)) := by
  unfold findTestingTCalls
  rw [inspectStmtList_append (findTestingTCallsVisit ti methodName) pre _ Option.none, hpre]
  simp [inspectStmtList, inspectStmt, inspectExpr, findTestingTCallsVisit, hmatch]

/-- C3 counterexample: in
`for v := range xs { t.Run("name"); It("desc", func() { use(v) }) }`
the single-argument `Run` call makes the subtest path panic; the loop
yields exactly the recovery diagnostic, and the Ginkgo hazard in the same
loop (the `v` at pos 72 inside the `It` closure) is *not* reported —
the claim's "second pattern still evaluated" fails. -/
theorem c3_counterexample :
    findIgnoredTests exTI3 (.cons exLoop3 .nil) =
      [⟨5, "panic: runtime error: index out of range [1] with length 1\n"⟩] ∧
    (findIgnoredTests exTI3 (.cons exLoop3 .nil)).all
      (fun d => d.msg != formatMsg ginkgoFailureMessageFormat ["v", "v"]) = true := by
  exact ⟨rfl, rfl⟩

/-- C3 (amended): a matched `Run` call with no second argument makes the
subtest path panic with an index-out-of-range fault; the per-loop
boundary converts it into a single recovery diagnostic at the loop's
position, and the Ginkgo check of that same loop is skipped (not
evaluated independently). -/
theorem c3_one_arg_run_panics (ti : TypesInfo) (loopNode : Stmt)
    (objs : List (Option Obj)) (body : StmtList) (runCall : CallExpr)
    (hobjs : getLoopNodeIdentifiersObjects ti loopNode = .ok objs)
    (hbody : getLoopBody loopNode = Option.some body)
    (hrun : findTestingTCalls ti body "Run" = .ok (Option.some runCall))
    (hone : runCall.args.get? 1 = Option.none) :
    loopNodeCallback ti loopNode =
      [panicDiagnostic loopNode
        ("runtime error: index out of range [1] with length " ++
          toString runCall.args.length)] := by
  have hsc : getSubtestClosure runCall =
      .error ("runtime error: index out of range [1] with length " ++
        toString runCall.args.length) := by
    simp [getSubtestClosure, hone]
  unfold loopNodeCallback checkAndReportLoop
  simp only [hobjs, hbody, hrun, hsc]
  simp

/-- Witness for the amended C3 at `exLoop3`. -/
theorem c3_one_arg_run_panics_witness :
    loopNodeCallback exTI3 exLoop3 =
      [panicDiagnostic exLoop3
        ("runtime error: index out of range [1] with length " ++
          toString exRunCall3.args.length)] :=
  c3_one_arg_run_panics exTI3 exLoop3 [Option.some 100] _ exRunCall3 rfl rfl rfl rfl

/-- C4 counterexample: a body with two sibling matching `t.Run` calls —
the finder returns the *second* one (pos 30), although the first one
(pos 20) also matches and comes earlier in document order. -/
theorem c4_counterexample :
    findTestingTCalls exTI4 exBody4 "Run" = .ok (Option.some exCallB) ∧
    testingTCallMatches exTI4 "Run" exCallA = .ok true ∧
    exCallA.posOf < exCallB.posOf ∧ exCallA ≠ exCallB := by
  refine ⟨rfl, rfl, by decide, by decide⟩

/-- C4 (amended): on a match the finders stop descending into the matched
call's subtree, but the walk continues, and a later sibling match
overwrites an earlier one; in particular when the last statement of the
body is a matching call, that call is returned regardless of any earlier
matches. -/
theorem c4_last_match_wins (ti : TypesInfo) (methodName : String) (pre : StmtList)
    (fn : Expr) (args : ExprList) (s0 : Option CallExpr)
    (hpre : inspectStmtList (findTestingTCallsVisit ti methodName) Option.none pre = .ok s0)
    (hmatch : testingTCallMatches ti methodName (.mk fn args) = .ok true) :
    findTestingTCalls ti (pre.append (.cons (.exprStmt (.call (.mk fn args))) .nil))
      methodName = .ok (Option.some (.mk fn args)) :=
  findTestingTCalls_last ti methodName pre fn args s0 hpre hmatch

/-- Witness for the amended C4: the earlier match of `exBody4` is in the
prefix, the final statement repeats the second call, and the finder
returns the final call. -/
theorem c4_last_match_wins_witness :
    findTestingTCalls exTI4
      (exBody4.append (.cons (.exprStmt (.call exCallB)) .nil)) "Run"
      = .ok (Option.some exCallB) :=
  c4_last_match_wins exTI4 "Run" exBody4 exCallB.fn exCallB.args (Option.some exCallB)
    rfl rfl

/-- C5 counterexample: a closure whose own parameter is object 300, whose
body marks parallelism through the *outer* test context (object 200) and
passes one argument — `isParallelFunctionClosure` still recognizes it. -/
theorem c5_counterexample :
    exTI5.objectOf 40 = Option.some 200 ∧
    exTI5.objectOf 30 = Option.some 300 ∧
    (200 : Obj) ≠ 300 ∧
    exClosure5.params = [⟨"tp", 30⟩] ∧
    isParallelFunctionClosure exTI5 exClosure5 = .ok (Option.some 40) := by
  refine ⟨rfl, rfl, by decide, rfl, rfl⟩

/-- C5 (amended): the marker is recognized for any call `x.Parallel(...)`
whose receiver identifier resolves to an object whose type prints as
`*testing.T` — the receiver need not be the closure's own parameter and
the argument count is not examined; the recorded position is the call's
(receiver's) position. -/
theorem c5_any_testing_t_receiver (ti : TypesInfo) (p : Pos) (params : List Ident)
    (pre : StmtList) (x selI : Ident) (args : ExprList) (o : Obj) (s0 : Option CallExpr)
    (hpre : inspectStmtList (findTestingTCallsVisit ti "Parallel") Option.none pre = .ok s0)
    (hobj : ti.objectOf x.pos = Option.some o)
    (hty : ti.typeStr o = "*testing.T")
    (hname : selI.name = "Parallel") :
    isParallelFunctionClosure ti
      (.mk p params
        (pre.append (.cons (.exprStmt (.call (.mk (.sel (.ident x) selI) args))) .nil)))
      = .ok (Option.some x.pos) := by
  have hmatch : testingTCallMatches ti "Parallel" (.mk (.sel (.ident x) selI) args)
      = .ok true := by
    simp [testingTCallMatches, hobj, hty, hname]
  unfold isParallelFunctionClosure
  rw [show FuncLit.body (.mk p params
    (pre.append (.cons (.exprStmt (.call (.mk (.sel (.ident x) selI) args))) .nil))) =
    pre.append (.cons (.exprStmt (.call (.mk (.sel (.ident x) selI) args))) .nil) from rfl]
  rw [findTestingTCalls_last ti "Parallel" pre _ args s0 hpre hmatch]
  simp [CallExpr.posOf, Expr.pos]

/-- Witness for the amended C5 at the `exClosure5` shape. -/
theorem c5_any_testing_t_receiver_witness :
    isParallelFunctionClosure exTI5
      (.mk 25 [⟨"tp", 30⟩]
        (StmtList.nil.append
          (.cons (.exprStmt (.call (.mk (.sel (.ident ⟨"t", 40⟩) ⟨"Parallel", 41⟩)
            (.cons (.lit 45) .nil)))) .nil)))
      = .ok (Option.some 40) :=
  c5_any_testing_t_receiver exTI5 25 [⟨"tp", 30⟩] .nil ⟨"t", 40⟩ ⟨"Parallel", 41⟩
    (.cons (.lit 45) .nil) 200 Option.none rfl rfl rfl rfl

/-- C7: the capture checker's per-identifier decision depends only on the
identifier's resolved object value being (identity-)equal to one of the
loop-variable objects; the name feeds only the message text, so an
identifier resolving to a different declaration (e.g. a shadowing local)
never produces a diagnostic, whatever its name. -/
theorem c7_identity_not_name (ti : TypesInfo) (objs : List (Option Obj)) (i : Ident)
    (message : String) :
    checkAndReportLoopIdentifierObject ti objs (.expr (.ident i)) message =
      if ti.objectOf i.pos ∈ objs then
        ([⟨i.pos, formatMsg message [i.name, i.name]⟩], false)
      else ([], true) :=
  checkIdent_eq_memIf ti objs i message

/-- C6: a panic in a loop's check — in the subtest stage, or in the Ginkgo
stage after the subtest stage finished — is recovered into exactly one
diagnostic carrying the fault's description at the loop's own position
(appended to whatever that loop reported before the fault), and the scan
of all other loops proceeds unaffected; the overall run always completes. -/
theorem c6_per_loop_recovery (ti : TypesInfo) (file : StmtList) (L : Stmt)
    (pre post : List Stmt) (ds : List Diagnostic) (r : Panic)
    (hsplit : loopsOfStmtList file = pre ++ L :: post)
    (hpanic : checkAndReportLoop ti L = (ds, .error r) ∨
      ∃ ds1 ds2, checkAndReportLoop ti L = (ds1, .ok ()) ∧
        checkAndReportLoopGinkgo ti L = (ds2, .error r) ∧ ds = ds1 ++ ds2) :
    loopNodeCallback ti L = ds ++ [panicDiagnostic L r] ∧
    findIgnoredTests ti file =
      pre.flatMap (loopNodeCallback ti) ++ (ds ++ [panicDiagnostic L r]) ++
        post.flatMap (loopNodeCallback ti) := by
  have h1 : loopNodeCallback ti L = ds ++ [panicDiagnostic L r] := by
    rcases hpanic with h | ⟨ds1, ds2, hs, hg, hds⟩
    · unfold loopNodeCallback
      simp only [h]
    · unfold loopNodeCallback
      simp only [hs, hg, hds]
      simp
  refine ⟨h1, ?_⟩
  unfold findIgnoredTests
  rw [hsplit]
  simp [h1]

/-- Witness for C6 at `exLoop3` (the subtest stage panics there). -/
theorem c6_per_loop_recovery_witness :
    loopNodeCallback exTI3 exLoop3 =
      [] ++ [panicDiagnostic exLoop3 "runtime error: index out of range [1] with length 1"] ∧
    findIgnoredTests exTI3 (.cons exLoop3 .nil) =
      ([] : List Stmt).flatMap (loopNodeCallback exTI3) ++
        ([] ++ [panicDiagnostic exLoop3 "runtime error: index out of range [1] with length 1"]) ++
        ([] : List Stmt).flatMap (loopNodeCallback exTI3) :=
  c6_per_loop_recovery exTI3 (.cons exLoop3 .nil) exLoop3 [] [] []
    "runtime error: index out of range [1] with length 1" rfl (Or.inl rfl)

/-- C8 counterexample: in
`for _, _ = range xs { It("desc", func() { _ = f() }) }` both range
bindings are discarded, yet the loop-variable object list is
`[nil, nil]` — not empty — and the blank identifier inside the closure
(whose `ObjectOf` is also nil) matches it, producing a diagnostic. -/
theorem c8_counterexample :
    getLoopNodeIdentifiersObjects exTI8 exLoop8 = .ok [Option.none, Option.none] ∧
    checkAndReportLoopGinkgo exTI8 exLoop8 =
      ([⟨70, formatMsg ginkgoFailureMessageFormat ["_", "_"]⟩], .ok ()) :=
  ⟨rfl, rfl⟩

/-- C8 (amended): the loop-variable object list of a collection loop has
exactly one entry per syntactically present key/value binding — including
discarded (blank) ones, whose `ObjectOf` value (possibly nil) is kept —
and only a syntactically absent binding contributes nothing. -/
theorem c8_per_present_binding (ti : TypesInfo) (p : Pos) (key value : OptExpr)
    (x : Expr) (body : StmtList) (objs : List (Option Obj))
    (h : getLoopNodeIdentifiersObjects ti (.rangeStmt p key value x body) = .ok objs) :
    objs = (presentExprs [key, value]).map
      (fun e => objectOfNilableIdent ti (exprToIdent e)) ∧
    objs.length =
      (if isNonNilExpr key then 1 else 0) + (if isNonNilExpr value then 1 else 0) := by
  have heq : objs = (presentExprs [key, value]).map
      (fun e => objectOfNilableIdent ti (exprToIdent e)) := by
    unfold getLoopNodeIdentifiersObjects getLoopVarsIdentifiers at h
    simp only [Except.ok.injEq] at h
    rw [← h, List.map_map]
    rfl
  refine ⟨heq, ?_⟩
  rw [heq]
  cases key <;> cases value <;> simp [presentExprs, isNonNilExpr]

/-- Witness for the amended C8 at `exLoop8`. -/
theorem c8_per_present_binding_witness :
    ([Option.none, Option.none] : List (Option Obj)) =
      (presentExprs [OptExpr.some (.ident ⟨"_", 10⟩), OptExpr.some (.ident ⟨"_", 12⟩)]).map
        (fun e => objectOfNilableIdent exTI8 (exprToIdent e)) ∧
    ([Option.none, Option.none] : List (Option Obj)).length =
      (if isNonNilExpr (OptExpr.some (.ident ⟨"_", 10⟩)) then 1 else 0) +
        (if isNonNilExpr (OptExpr.some (.ident ⟨"_", 12⟩)) then 1 else 0) :=
  c8_per_present_binding exTI8 5 (OptExpr.some (.ident ⟨"_", 10⟩))
    (OptExpr.some (.ident ⟨"_", 12⟩)) (.ident ⟨"xs", 14⟩)
    (.cons (.exprStmt (.call (.mk (.ident ⟨"It", 60⟩)
      (.cons (.lit 61) (.cons (.funcLit (.mk 62 []
        (.cons (.assign (.cons (.ident ⟨"_", 70⟩) .nil)
          (.cons (.call (.mk (.ident ⟨"f", 72⟩) .nil)) .nil)) .nil))) .nil))))) .nil)
    [Option.none, Option.none] rfl

/-- C9: a counting loop whose initializer is absent, or is any statement
shape other than an assignment, yields an empty loop-variable identifier
list without panicking. -/
theorem c9_empty_on_unrecognized_init (p : Pos) (init : OptStmt) (cond : OptExpr)
    (post : OptStmt) (body : StmtList)
    (h : ∀ lhs rhs, init ≠ OptStmt.some (.assign lhs rhs)) :
    getLoopVarsIdentifiers (.forStmt p init cond post body) = .ok [] := by
  unfold getLoopVarsIdentifiers
  cases init with
  | none => rfl
  | some s =>
    cases s with
    | exprStmt e => rfl
    | assign lhs rhs => exact absurd rfl (h lhs rhs)
    | incDec x => rfl
    | rangeStmt p2 k v x b => rfl
    | forStmt p2 i2 c2 po b => rfl

/-- Witness for C9 at `exLoop9` (inc/dec initializer). -/
theorem c9_empty_on_unrecognized_init_witness :
    getLoopVarsIdentifiers exLoop9 = .ok [] :=
  c9_empty_on_unrecognized_init 5 (.some (.incDec (.ident ⟨"i", 10⟩)))
    (.some (.ident ⟨"cond", 12⟩)) (.some (.incDec (.ident ⟨"i", 14⟩))) .nil
    (fun lhs rhs hh => by simp at hh)

/-- C10: a call whose callee identifier is named `"It"` (selected or bare)
and resolves to an object with a declaring package matches the Ginkgo
call test exactly when that package path is one of the two Ginkgo import
paths — an `It` declared in any other package never matches. -/
theorem c10_ginkgo_package_allowlist (ti : TypesInfo) (c : CallExpr)
    (callIdentifier : Ident) (o : Obj) (packagePath : String)
    (hcallee : ginkgoCallIdentifier c.fn = Option.some callIdentifier)
    (hname : callIdentifier.name = "It")
    (hobj : ti.objectOf callIdentifier.pos = Option.some o)
    (hpkg : ti.pkgPath o = Option.some packagePath) :
    (ginkgoItCallMatches ti c = .ok true ↔
      (packagePath = "github.com/onsi/ginkgo/v2" ∨ packagePath = "github.com/onsi/ginkgo")) := by
  obtain ⟨fn, args⟩ := c
  simp only [CallExpr.fn] at hcallee
  simp only [ginkgoItCallMatches, hcallee, hname]
  simp [isGinkgoIdentifier, hobj, hpkg]

/-- Witness for C10 at the `It` call of `exLoop2`. -/
theorem c10_ginkgo_package_allowlist_witness :
    ginkgoItCallMatches exTI2 exItCall2 = .ok true :=
  (c10_ginkgo_package_allowlist exTI2 exItCall2 ⟨"It", 60⟩ 600
    "github.com/onsi/ginkgo/v2" rfl rfl rfl rfl).mpr (Or.inl rfl)

end Gotestlooplint
